import Mathlib

/-!
Verification of `nextcloudSimpleCLI` (`src/main.py`) against its specification.

The program is a one-shot CLI that either uploads local files/directories to a
Nextcloud server or lists remote paths.  We give a shallow embedding of the
relevant parts of `main.py`:

* the remote server (`nextcloud_client.Client`) is modeled as a record of pure
  functions returning `Except HTTPResponseError _`, mirroring the fact that the
  Python code only observes these calls through their return/raise behaviour;
* the local filesystem is a function `String → Option Bool`
  (`none` = path does not exist, `some true` = directory, `some false` = file),
  mirroring `Path.exists` / `Path.is_dir`;
* `print` calls and remote calls performed by `upload` are recorded as an event
  trace (`UpEvent`); the `list` workflow only prints, so it returns the printed
  lines; an uncaught `HTTPResponseError` is modeled by the `Option
  HTTPResponseError` component of the result (`some e` = the exception
  propagates out of the function and the run dies);
* Python floats in `sizeof_fmt` are modeled as exact rationals; all the
  quantities the spec talks about (powers of 1024, halves) are exactly
  representable as binary floats, so the rational model agrees with the float
  code on them.
-/

namespace NextcloudCLI

/-- The `status_code`-carrying exception `nextcloud_client.HTTPResponseError`. -/
structure HTTPResponseError where
  status_code : ℕ
  deriving DecidableEq

/-- Model of `nextcloud_client.FileInfo` as consumed by `main.py`: the fields
`main.py` reads are `path`, `is_dir()`, `attributes["{DAV:}quota-used-bytes"]`
(modeled already parsed to an integer, as `int(...)` does), `get_size()` and
`get_last_modified()` (kept as the server-provided string). -/
structure FileInfo where
  path : String
  is_dir : Bool
  quota_used_bytes : ℤ
  size : ℤ
  last_modified : String
  deriving DecidableEq

/-- The remote operations the `list` workflow performs on the session. -/
structure NCServer where
  file_info : String → Except HTTPResponseError (Option FileInfo)
  list : String → List FileInfo

/-- The remote operations the `upload` workflow performs on the session
(`chunked=True` is passed on every call in the source, so it is not a
parameter of the model). -/
structure NCUpload where
  put_directory : String → String → Except HTTPResponseError Unit
  mkdir : String → Except HTTPResponseError Unit
  put_file : String → String → Except HTTPResponseError Unit

/-- Observable actions of the `upload` workflow: lines printed to stdout and
remote calls issued. -/
inductive UpEvent where
  | print (line : String)
  | put_directory (destination source : String)
  | mkdir (destination : String)
  | put_file (destination source : String)
  deriving DecidableEq

/-- Absolute value on rationals, written as the branch Python's `abs` takes. -/
def ratAbs (q : ℚ) : ℚ := if q < 0 then -q else q

/-- Floor of a rational (`num.fdiv den`, floor division by the positive
denominator). -/
def ratFloor (q : ℚ) : ℤ := q.num.fdiv q.den

/-- Round to the nearest integer with ties to even, which is how Python's
`format(x, '.1f')` rounds an exactly-representable value. -/
def rne (q : ℚ) : ℤ :=
  let f := ratFloor q
  let r := q - (f : ℚ)
  if r < 1 / 2 then f
  else if 1 / 2 < r then f + 1
  else if f % 2 = 0 then f else f + 1

/-- Model of Python `f"{q:3.1f}"` / `f"{q:.1f}"` on an exact rational: sign,
then the magnitude rounded to one decimal digit.  The two format strings agree
because a one-decimal rendering is always at least three characters wide, so
the minimum width 3 never pads. -/
def fmtOneDecimal (q : ℚ) : String :=
  let sign := if q < 0 then "-" else ""
  let n := (rne (10 * ratAbs q)).toNat
  sign ++ toString (n / 10) ++ "." ++ toString (n % 10)

/-- The unit tuple iterated by `sizeof_fmt`. -/
def sizeUnits : List String := ["", "K", "M", "G", "T", "P", "E", "Z"]

/-- The loop of `sizeof_fmt`: try each unit while `abs(num) >= 1024`, dividing
by 1024 each time; falling off the tuple returns the fixed `"Yi"` rendering. -/
def sizeofFmtLoop : List String → ℚ → String → String
  | [], num, suffix => fmtOneDecimal num ++ "Yi" ++ suffix
  | unit :: rest, num, suffix =>
    if ratAbs num < 1024 then fmtOneDecimal num ++ unit ++ suffix
    else sizeofFmtLoop rest (num / 1024) suffix

/-- `sizeof_fmt` from `main.py` (lines 52-60).  In Python `suffix` defaults to
the empty string; callers in `main.py` always use the default. -/
def sizeof_fmt (num : ℚ) (suffix : String) : String :=
  sizeofFmtLoop sizeUnits num suffix

/-- Model of `str(pathlib.Path(p))` on POSIX: drop empty and `"."` components
and the trailing separator; an empty result renders as `"."` (or `"/"` when
absolute).  The POSIX double-slash-root corner case is not modeled. -/
def pathStr (p : String) : String :=
  let isAbs := p.startsWith "/"
  let parts := (p.splitOn "/").filter (fun c => c != "" && c != ".")
  if parts.isEmpty then (if isAbs then "/" else ".")
  else (if isAbs then "/" else "") ++ String.intercalate "/" parts

/-- Model of `PurePath(p).name`: the last nonempty, non-`"."` slash-separated
component, or the empty string if there is none (e.g. for the root). -/
def pathlibName (p : String) : String :=
  (((p.splitOn "/").filter (fun c => c != "" && c != ".")).getLast?).getD ""

/-- Python right-alignment `f"{s:>{width}}"`: left-pad with spaces up to
`width` (no-op when `s` is already at least that wide). -/
def padLeft (width : ℕ) (s : String) : String :=
  String.mk (List.replicate (width - s.length) ' ') ++ s

/-- The inner helper `_get_file_size` of `_print_nc_files`: directories report
their quota-used bytes, files their size. -/
def _get_file_size (file : FileInfo) : ℤ :=
  if file.is_dir then file.quota_used_bytes else file.size

/-- The display size both passes of `_print_nc_files` compute: the raw integer
rendered by `str`, or the `sizeof_fmt` rendering in human-readable mode. -/
def sizeDisplay (print_human : Bool) (file : FileInfo) : String :=
  if print_human then sizeof_fmt ((_get_file_size file : ℤ) : ℚ) ""
  else toString (_get_file_size file)

/-- First pass of `_print_nc_files`: fold the `if length > padding` update over
the file list, starting from 0. -/
def paddingOf (print_human : Bool) (file_list : List FileInfo) : ℕ :=
  file_list.foldl
    (fun padding file =>
      let file_size_string_length := (sizeDisplay print_human file).length
      if file_size_string_length > padding then file_size_string_length
      else padding)
    0

/-- `_print_nc_files` from `main.py` (lines 63-100), returning the printed
lines: second pass prints `f"{file_size:>{padding}} {last_modified} {file_path}"`
with a `"/"` appended to directory names. -/
def _print_nc_files (print_human : Bool) (file_list : List FileInfo) : List String :=
  let padding := paddingOf print_human file_list
  file_list.map
    (fun file =>
      let file_size := sizeDisplay print_human file
      let file_path := pathlibName file.path ++ (if file.is_dir then "/" else "")
      padLeft padding file_size ++ " " ++ file.last_modified ++ " " ++ file_path)

/-- Line 24 of `main.py`: append a trailing `"/"` unless the last character
already is one (`destination[-1:] == "/"` is exactly the last-character test,
and is false for the empty string). -/
def normalizeDestination (destination : String) : String :=
  if destination.data.getLast? = some '/' then destination else destination ++ "/"

/-- One iteration of the `upload` loop (lines 26-49 of `main.py`) for a single
source path.  `local_fs` answers `Path(file).exists()` / `is_dir()`.  Note that
in the source the `continue` of the directory branch sits inside the `except`
block and there is no `raise`, so every `HTTPResponseError` of `put_directory`
is caught; likewise the `except` around `mkdir` has no `raise` (the
`if e.status_code == 409: pass` has no `else`), so every `HTTPResponseError` of
`mkdir` is swallowed and `put_file` runs.  Only a `put_file` failure escapes
this function. -/
def uploadItem (destination : String) (local_fs : String → Option Bool)
    (nc : NCUpload) (file : String) : List UpEvent × Option HTTPResponseError :=
  match local_fs file with
  | none => ([UpEvent.print (pathStr file ++ " does not exist")], none)
  | some true =>
    let pre := [UpEvent.print ("uploading dir " ++ file ++ " to " ++ destination),
                UpEvent.put_directory destination file]
    match nc.put_directory destination file with
    | Except.ok _ => (pre, none)
    | Except.error e =>
      if e.status_code = 405 then
        (pre ++ [UpEvent.print ("Could not upload " ++ file ++ "."),
                 UpEvent.print (file ++ " already exists in " ++ destination ++ "."),
                 UpEvent.print "Remove it from Nextcloud or set a different destination."],
         none)
      else (pre, none)
  | some false =>
    let pre := [UpEvent.print ("uploading file " ++ file ++ " to " ++ destination),
                UpEvent.mkdir destination]
    let mkdirMsgs : List UpEvent :=
      match nc.mkdir destination with
      | Except.ok _ => []
      | Except.error e => if e.status_code = 409 then [] else []
    match nc.put_file destination file with
    | Except.ok _ => (pre ++ mkdirMsgs ++ [UpEvent.put_file destination file], none)
    | Except.error e => (pre ++ mkdirMsgs ++ [UpEvent.put_file destination file], some e)

/-- The `for file in args.source_files` loop of `upload`: items are processed
in order; a propagating exception from an item aborts the rest of the loop. -/
def uploadLoop (destination : String) (local_fs : String → Option Bool)
    (nc : NCUpload) : List String → List UpEvent × Option HTTPResponseError
  | [] => ([], none)
  | file :: rest =>
    let r := uploadItem destination local_fs nc file
    match r.2 with
    | some e => (r.1, some e)
    | none =>
      let rs := uploadLoop destination local_fs nc rest
      (r.1 ++ rs.1, rs.2)

/-- `upload` from `main.py` (lines 11-49): warn when no sources were given
(and still fall through to the empty loop), normalize the destination, then
process every source item. -/
def upload (source_files : List String) (destination_arg : String)
    (local_fs : String → Option Bool) (nc : NCUpload) :
    List UpEvent × Option HTTPResponseError :=
  let usage :=
    if source_files.length = 0 then
      [UpEvent.print "source files / folders are missing",
       UpEvent.print "see usage (--help) for more information"]
    else []
  let destination := normalizeDestination destination_arg
  let r := uploadLoop destination local_fs nc source_files
  (usage ++ r.1, r.2)

/-- The `for destination in all_destinations` loop of `list` (lines 111-127):
`total` is the length of the full `all_destinations` list (computed once in
the source and unchanged by the loop).  A 404 from `file_info` prints
`"<path> not found"` and continues; any other `HTTPResponseError` is re-raised
(`some e`), aborting the loop; a `None` result prints nothing for the path. -/
def listLoop (human_readable : Bool) (total : ℕ) (nc : NCServer) :
    List String → List String × Option HTTPResponseError
  | [] => ([], none)
  | destination :: rest =>
    let header := if total > 1 then [destination ++ ":"] else []
    match nc.file_info destination with
    | Except.error e =>
      if e.status_code = 404 then
        let r := listLoop human_readable total nc rest
        (header ++ (destination ++ " not found") :: r.1, r.2)
      else (header, some e)
    | Except.ok dst_info =>
      let body :=
        match dst_info with
        | some info =>
          if info.is_dir then _print_nc_files human_readable (nc.list destination)
          else _print_nc_files human_readable [info]
        | none => []
      let r := listLoop human_readable total nc rest
      (header ++ body ++ r.1, r.2)

/-- `list` from `main.py` (lines 103-127): the processed paths are
`[args.destination] + args.source_files`. -/
def list (human_readable : Bool) (source_files : List String)
    (destination : String) (nc : NCServer) : List String × Option HTTPResponseError :=
  let all_destinations := destination :: source_files
  listLoop human_readable all_destinations.length nc all_destinations

/-- Spec-side restatement of the `list` loop for the header claim: instead of
re-testing `len(all_destinations) > 1` on every iteration, it takes the
"more than one path is being listed" condition as a boolean `multi` and prints
the header exactly when `multi` holds. -/
def listLoopSpec (human_readable : Bool) (multi : Bool) (nc : NCServer) :
    List String → List String × Option HTTPResponseError
  | [] => ([], none)
  | destination :: rest =>
    let header := if multi then [destination ++ ":"] else []
    match nc.file_info destination with
    | Except.error e =>
      if e.status_code = 404 then
        let r := listLoopSpec human_readable multi nc rest
        (header ++ (destination ++ " not found") :: r.1, r.2)
      else (header, some e)
    | Except.ok dst_info =>
      let body :=
        match dst_info with
        | some info =>
          if info.is_dir then _print_nc_files human_readable (nc.list destination)
          else _print_nc_files human_readable [info]
        | none => []
      let r := listLoopSpec human_readable multi nc rest
      (header ++ body ++ r.1, r.2)

/-- The credential inputs of `nextcloud_connect`: each argparse option is
`None` when not supplied. -/
structure ConnArgs where
  server : Option String
  user : Option String
  password : Option String
  config : Option String
  deriving DecidableEq

/-- Which branch of the `if`/`elif` chain of `nextcloud_connect` (lines
150-160) supplies the credentials. `unassigned` is the final `else: pass`
branch, in which no credentials are assigned at all (the Python code would
then die with a `NameError` on the unbound `url`). -/
inductive CredSource where
  | explicitTriple
  | explicitConfig
  | defaultConfig
  | unassigned
  deriving DecidableEq

/-- The `if`/`elif`/`elif`/`else` chain of `nextcloud_connect`, lines 150-160
of `main.py`, translated condition for condition. -/
def resolveCredSource (args : ConnArgs) : CredSource :=
  if args.server.isSome && args.user.isSome && args.password.isSome then
    CredSource.explicitTriple
  else if args.config.isSome then
    CredSource.explicitConfig
  else if args.config.isNone && args.server.isNone then
    CredSource.defaultConfig
  else
    CredSource.unassigned

/-- Spec-side width of the widest rendered size of a listing, stated directly
as the maximum of the rendered lengths (to be compared with the first-pass
fold `paddingOf` of the source). -/
def maxSizeWidth (print_human : Bool) (file_list : List FileInfo) : ℕ :=
  (file_list.map (fun file => (sizeDisplay print_human file).length)).foldr max 0

/-- Fixture: a remote directory entry. -/
def fiDocs : FileInfo :=
  ⟨"/webdav/docs", true, 2048, 0, "Mon, 01 Jan 2024 10:00:00 GMT"⟩

/-- Fixture: a remote file entry. -/
def fiNote : FileInfo :=
  ⟨"/webdav/note.txt", false, 0, 137, "Tue, 02 Jan 2024 11:00:00 GMT"⟩

/-- Fixture server for the `list` workflow: `/gone` is missing (404), `/boom`
fails with 500, `/empty` yields no metadata, everything else is the `fiDocs`
directory with children `[fiDocs, fiNote]`. -/
def ncListFix : NCServer :=
  ⟨fun d =>
    if d = "/gone" then Except.error ⟨404⟩
    else if d = "/boom" then Except.error ⟨500⟩
    else if d = "/empty" then Except.ok none
    else Except.ok (some fiDocs),
   fun _ => [fiDocs, fiNote]⟩

/-- Fixture upload session on which every remote call succeeds. -/
def ncUploadOk : NCUpload :=
  ⟨fun _ _ => Except.ok (), fun _ => Except.ok (), fun _ _ => Except.ok ()⟩

/-- Fixture upload session whose `put_directory` always fails with 500. -/
def ncPutDirFail : NCUpload :=
  ⟨fun _ _ => Except.error ⟨500⟩, fun _ => Except.ok (), fun _ _ => Except.ok ()⟩

/-- Fixture upload session whose `put_directory` always fails with 405. -/
def ncPutDir405 : NCUpload :=
  ⟨fun _ _ => Except.error ⟨405⟩, fun _ => Except.ok (), fun _ _ => Except.ok ()⟩

/-- Fixture upload session whose `mkdir` always fails with 500. -/
def ncMkdirFail : NCUpload :=
  ⟨fun _ _ => Except.ok (), fun _ => Except.error ⟨500⟩, fun _ _ => Except.ok ()⟩

/-- Fixture local filesystem: `docs` and `beta` are directories, `notes.txt`
is a file, nothing else exists. -/
def localFsFix : String → Option Bool := fun f =>
  if f = "docs" then some true
  else if f = "beta" then some true
  else if f = "notes.txt" then some false
  else none

lemma data_getLast_append_slash (d : String) : (d ++ "/").data.getLast? = some '/' := by
  rw [String.data_append]
  exact List.getLast?_concat _

lemma normalizeDestination_of_slash (d : String) (h : d.data.getLast? = some '/') :
    normalizeDestination d = d := by
  unfold normalizeDestination
  rw [if_pos h]

lemma normalizeDestination_of_not_slash (d : String) (h : ¬d.data.getLast? = some '/') :
    normalizeDestination d = d ++ "/" := by
  unfold normalizeDestination
  rw [if_neg h]

/-- C6: destination normalization appends exactly one `"/"` to a destination
not ending in the separator, leaves a destination already ending in `"/"`
unchanged, and is idempotent. -/
theorem normalize_destination_spec :
    (∀ d : String, d.data.getLast? ≠ some '/' → normalizeDestination d = d ++ "/") ∧
    (∀ d : String, d.data.getLast? = some '/' → normalizeDestination d = d) ∧
    (∀ d : String, normalizeDestination (normalizeDestination d) = normalizeDestination d) := by
  refine ⟨fun d h => normalizeDestination_of_not_slash d h,
          fun d h => normalizeDestination_of_slash d h, fun d => ?_⟩
  by_cases h : d.data.getLast? = some '/'
  · rw [normalizeDestination_of_slash d h, normalizeDestination_of_slash d h]
  · rw [normalizeDestination_of_not_slash d h,
        normalizeDestination_of_slash _ (data_getLast_append_slash d)]

/-- Witness for C6 at the concrete destination `"dst"`. -/
theorem normalize_destination_spec_witness :
    ("dst" : String).data.getLast? ≠ some '/' ∧ normalizeDestination "dst" = "dst" ++ "/" :=
  ⟨by decide, normalize_destination_spec.1 "dst" (by decide)⟩

/-- C3 counterexample: supplying only the server flag (no user, no password,
no config) does not fall through to config-based resolution — it lands in the
dead `else: pass` branch, where no credentials are assigned at all. -/
theorem resolve_cred_cex :
    resolveCredSource ⟨some "https://cloud.example.com", none, none, none⟩ =
      CredSource.unassigned ∧
    CredSource.unassigned ≠ CredSource.defaultConfig ∧
    CredSource.unassigned ≠ CredSource.explicitConfig ∧
    CredSource.unassigned ≠ CredSource.explicitTriple := by
  decide

/-- C3 as amended: the explicit triple wins only when all three flags are
present; otherwise an explicit config file wins; otherwise, with no config
file, the default config file is used only when the server flag is also
absent — when the server flag is present (with user or password missing and no
config), no branch assigns credentials. -/
theorem resolve_cred_precedence (args : ConnArgs) :
    (args.server.isSome ∧ args.user.isSome ∧ args.password.isSome →
      resolveCredSource args = CredSource.explicitTriple) ∧
    (¬(args.server.isSome ∧ args.user.isSome ∧ args.password.isSome) →
      (args.config.isSome → resolveCredSource args = CredSource.explicitConfig) ∧
      (args.config = none → args.server = none →
        resolveCredSource args = CredSource.defaultConfig) ∧
      (args.config = none → args.server.isSome →
        resolveCredSource args = CredSource.unassigned)) := by
  obtain ⟨s, u, p, c⟩ := args
  cases s <;> cases u <;> cases p <;> cases c <;> simp [resolveCredSource]

/-- Witness for C3 (amended) at a fully explicit credential triple. -/
theorem resolve_cred_precedence_witness :
    resolveCredSource ⟨some "https://cloud.example.com", some "alice", some "pw", none⟩ =
      CredSource.explicitTriple :=
  (resolve_cred_precedence ⟨some "https://cloud.example.com", some "alice", some "pw", none⟩).1
    (by decide)

lemma listLoop_eq_spec (h : Bool) (total : ℕ) (nc : NCServer) (ds : List String) :
    listLoop h total nc ds = listLoopSpec h (decide (total > 1)) nc ds := by
  induction ds with
  | nil => rfl
  | cons d rest ih =>
    simp only [listLoop, listLoopSpec, ih]
    by_cases htot : total > 1
    · simp [htot]
    · simp [htot]

/-- C9: the `list` workflow is the loop that prints a `"<path>:"` header
before each path's results exactly when the `multi` condition holds, where
`multi` is "more than one path is listed in this invocation"; and more than
one path is listed precisely when at least one source path accompanies the
destination. -/
theorem list_header_iff (h : Bool) (src : List String) (dst : String) (nc : NCServer) :
    list h src dst nc = listLoopSpec h (decide ((dst :: src).length > 1)) nc (dst :: src) ∧
    ((dst :: src).length > 1 ↔ src ≠ []) := by
  constructor
  · exact listLoop_eq_spec h (dst :: src).length nc (dst :: src)
  · cases src <;> simp

/-- C10: a path whose metadata fetch returns `ok none` contributes no content
lines (only its header, when more than one path is listed), raises nothing,
and the loop continues with the remaining paths. -/
theorem list_none_info (h : Bool) (total : ℕ) (nc : NCServer) (d : String)
    (rest : List String) (hfi : nc.file_info d = Except.ok none) :
    listLoop h total nc (d :: rest) =
      ((if total > 1 then [d ++ ":"] else []) ++ (listLoop h total nc rest).1,
       (listLoop h total nc rest).2) := by
  simp only [listLoop, hfi]
  simp

/-- Witness for C10 on the fixture server at `/empty`. -/
theorem list_none_info_witness :
    ncListFix.file_info "/empty" = Except.ok none ∧
    listLoop false 2 ncListFix ["/empty", "/gone"] =
      ((if 2 > 1 then ["/empty" ++ ":"] else []) ++ (listLoop false 2 ncListFix ["/gone"]).1,
       (listLoop false 2 ncListFix ["/gone"]).2) :=
  ⟨rfl, list_none_info false 2 ncListFix "/empty" ["/gone"] rfl⟩

/-- C4: during `list`, a 404 from the metadata fetch prints
`"<path> not found"` and processing continues with the remaining paths, while
an `HTTPResponseError` with any other status code is re-raised, aborting the
loop with only that path's header printed. -/
theorem list_404_handling (h : Bool) (total : ℕ) (nc : NCServer) (d : String)
    (rest : List String) (e : HTTPResponseError) (hfi : nc.file_info d = Except.error e) :
    (e.status_code = 404 →
      listLoop h total nc (d :: rest) =
        ((if total > 1 then [d ++ ":"] else []) ++
          (d ++ " not found") :: (listLoop h total nc rest).1,
         (listLoop h total nc rest).2)) ∧
    (e.status_code ≠ 404 →
      listLoop h total nc (d :: rest) = (if total > 1 then [d ++ ":"] else [], some e)) := by
  constructor
  · intro h404
    simp only [listLoop, hfi, h404]
    simp
  · intro h404
    simp only [listLoop, hfi]
    rw [if_neg h404]

/-- Witness for C4 on the fixture server: `/gone` is 404, and `/empty` is
still processed afterwards. -/
theorem list_404_handling_witness :
    ncListFix.file_info "/gone" = Except.error ⟨404⟩ ∧
    listLoop false 2 ncListFix ["/gone", "/empty"] =
      ((if 2 > 1 then ["/gone" ++ ":"] else []) ++
        ("/gone" ++ " not found") :: (listLoop false 2 ncListFix ["/empty"]).1,
       (listLoop false 2 ncListFix ["/empty"]).2) :=
  ⟨rfl, (list_404_handling false 2 ncListFix "/gone" ["/empty"] ⟨404⟩ rfl).1 rfl⟩

/-- C5: a source path that does not exist locally produces the
`"... does not exist"` message, raises nothing, and the loop continues with
the remaining source items in order. -/
theorem upload_missing_source (destination : String) (local_fs : String → Option Bool)
    (nc : NCUpload) (file : String) (rest : List String) (hmiss : local_fs file = none) :
    uploadLoop destination local_fs nc (file :: rest) =
      (UpEvent.print (pathStr file ++ " does not exist") ::
        (uploadLoop destination local_fs nc rest).1,
       (uploadLoop destination local_fs nc rest).2) := by
  simp only [uploadLoop, uploadItem, hmiss]
  simp

/-- Witness for C5: uploading the missing path `ghost` followed by the
existing file `notes.txt`. -/
theorem upload_missing_source_witness :
    localFsFix "ghost" = none ∧
    uploadLoop "dst/" localFsFix ncUploadOk ["ghost", "notes.txt"] =
      (UpEvent.print (pathStr "ghost" ++ " does not exist") ::
        (uploadLoop "dst/" localFsFix ncUploadOk ["notes.txt"]).1,
       (uploadLoop "dst/" localFsFix ncUploadOk ["notes.txt"]).2) :=
  ⟨by decide, upload_missing_source "dst/" localFsFix ncUploadOk "ghost" ["notes.txt"] (by decide)⟩

/-- C1 counterexample: a directory upload failing with status 500 (not 405)
does not propagate out of `upload` — the error component of the result is
`none` and the loop goes on to upload the next source (`beta`); the source's
`continue` sits inside the `except` block and nothing re-raises. -/
theorem upload_dir_error_cex :
    (upload ["docs", "beta"] "dst" localFsFix ncPutDirFail).2 = none ∧
    UpEvent.put_directory "dst/" "beta" ∈
      (upload ["docs", "beta"] "dst" localFsFix ncPutDirFail).1 := by
  constructor
  · rfl
  · simp [upload, uploadLoop, uploadItem, localFsFix, ncPutDirFail, normalizeDestination]

/-- C1 as amended: every `HTTPResponseError` raised by the directory upload is
caught; when the status code is 405 the conflict is reported naming both the
source and the destination, for any other status code nothing is reported; in
both cases no exception propagates and processing continues with the next
source item. -/
theorem upload_dir_error_handling (destination : String) (local_fs : String → Option Bool)
    (nc : NCUpload) (file : String) (rest : List String) (e : HTTPResponseError)
    (hdir : local_fs file = some true)
    (herr : nc.put_directory destination file = Except.error e) :
    uploadLoop destination local_fs nc (file :: rest) =
      (([UpEvent.print ("uploading dir " ++ file ++ " to " ++ destination),
         UpEvent.put_directory destination file] ++
        (if e.status_code = 405 then
          [UpEvent.print ("Could not upload " ++ file ++ "."),
           UpEvent.print (file ++ " already exists in " ++ destination ++ "."),
           UpEvent.print "Remove it from Nextcloud or set a different destination."]
         else [])) ++ (uploadLoop destination local_fs nc rest).1,
       (uploadLoop destination local_fs nc rest).2) := by
  simp only [uploadLoop, uploadItem, hdir, herr]
  by_cases h405 : e.status_code = 405
  · simp [h405]
  · simp [h405]

/-- Witness for C1 (amended): a 405 on `docs` prints the conflict and the
following source `beta` is still processed. -/
theorem upload_dir_error_handling_witness :
    localFsFix "docs" = some true ∧
    uploadLoop "dst/" localFsFix ncPutDir405 ["docs", "beta"] =
      (([UpEvent.print ("uploading dir " ++ "docs" ++ " to " ++ "dst/"),
         UpEvent.put_directory "dst/" "docs"] ++
        (if (405 : ℕ) = 405 then
          [UpEvent.print ("Could not upload " ++ "docs" ++ "."),
           UpEvent.print ("docs" ++ " already exists in " ++ "dst/" ++ "."),
           UpEvent.print "Remove it from Nextcloud or set a different destination."]
         else [])) ++ (uploadLoop "dst/" localFsFix ncPutDir405 ["beta"]).1,
       (uploadLoop "dst/" localFsFix ncPutDir405 ["beta"]).2) :=
  ⟨rfl, upload_dir_error_handling "dst/" localFsFix ncPutDir405 "docs" ["beta"] ⟨405⟩ rfl rfl⟩

/-- C2 counterexample: when the pre-upload `mkdir` fails with status 500 (not
409), the run does not fail — the error is swallowed (the `except` block has
no `raise`) and `put_file` is still issued, completing with no propagated
error. -/
theorem upload_mkdir_error_cex :
    (upload ["notes.txt"] "dst/" localFsFix ncMkdirFail).2 = none ∧
    UpEvent.put_file "dst/" "notes.txt" ∈
      (upload ["notes.txt"] "dst/" localFsFix ncMkdirFail).1 := by
  constructor
  · rfl
  · simp [upload, uploadLoop, uploadItem, localFsFix, ncMkdirFail, normalizeDestination]

/-- C2 as amended: every `HTTPResponseError` from the directory-creation step
is silently ignored, whatever its status code (409 or not), and the file
upload proceeds; the item's outcome is decided solely by `put_file`. -/
theorem upload_mkdir_error_handling (destination : String) (local_fs : String → Option Bool)
    (nc : NCUpload) (file : String) (e : HTTPResponseError)
    (hfile : local_fs file = some false)
    (herr : nc.mkdir destination = Except.error e) :
    uploadItem destination local_fs nc file =
      ([UpEvent.print ("uploading file " ++ file ++ " to " ++ destination),
        UpEvent.mkdir destination, UpEvent.put_file destination file],
       match nc.put_file destination file with
       | Except.ok _ => none
       | Except.error e2 => some e2) := by
  simp only [uploadItem, hfile, herr]
  cases hpf : nc.put_file destination file with
  | ok u => simp [hpf, ite_self]
  | error e2 => simp [hpf, ite_self]

/-- Witness for C2 (amended): `mkdir` fails with 500 on the fixture, yet
`put_file` still runs and the item succeeds. -/
theorem upload_mkdir_error_handling_witness :
    localFsFix "notes.txt" = some false ∧
    uploadItem "dst/" localFsFix ncMkdirFail "notes.txt" =
      ([UpEvent.print ("uploading file " ++ "notes.txt" ++ " to " ++ "dst/"),
        UpEvent.mkdir "dst/", UpEvent.put_file "dst/" "notes.txt"],
       match ncMkdirFail.put_file "dst/" "notes.txt" with
       | Except.ok _ => none
       | Except.error e2 => some e2) :=
  ⟨rfl, upload_mkdir_error_handling "dst/" localFsFix ncMkdirFail "notes.txt" ⟨500⟩ rfl rfl⟩

lemma ratAbs_eq_abs (q : ℚ) : ratAbs q = |q| := by
  unfold ratAbs
  rcases lt_or_le q 0 with h | h
  · rw [if_pos h, abs_of_neg h]
  · rw [if_neg (not_lt.mpr h), abs_of_nonneg h]

lemma rne_intCast (n : ℤ) : rne ((n : ℤ) : ℚ) = n := by
  simp only [rne, ratFloor, Rat.num_intCast, Rat.den_intCast, Nat.cast_one, Int.fdiv_one]
  norm_num

lemma fmtOneDecimal_eval (n : ℕ) :
    fmtOneDecimal ((n : ℚ) / 10) = "" ++ toString (n / 10) ++ "." ++ toString (n % 10) := by
  have hpos : (0 : ℚ) ≤ (n : ℚ) / 10 := by positivity
  have hlt : ¬((n : ℚ) / 10 < 0) := not_lt.mpr hpos
  have habs : ratAbs ((n : ℚ) / 10) = (n : ℚ) / 10 := by
    unfold ratAbs
    rw [if_neg hlt]
  have hmul : (10 : ℚ) * ((n : ℚ) / 10) = ((n : ℤ) : ℚ) := by
    push_cast
    field_simp
  simp only [fmtOneDecimal, habs, hmul, rne_intCast, if_neg hlt, Int.toNat_natCast]

lemma sizeofFmtLoop_tier (units : List String) :
    ∀ (k : ℕ) (num : ℚ) (suffix : String), k < units.length →
      (1024 : ℚ) ^ k ≤ |num| → |num| < (1024 : ℚ) ^ (k + 1) →
      sizeofFmtLoop units num suffix =
        fmtOneDecimal (num / 1024 ^ k) ++ units.getD k "" ++ suffix := by
  induction units with
  | nil =>
    intro k num suffix hk
    exact absurd hk (by simp)
  | cons unit rest ih =>
    intro k num suffix hk hlo hhi
    match k with
    | 0 =>
      have h1 : ratAbs num < 1024 := by
        rw [ratAbs_eq_abs]
        simpa using hhi
      simp only [sizeofFmtLoop, if_pos h1, pow_zero, div_one, List.getD_cons_zero]
    | k + 1 =>
      have hge : (1024 : ℚ) ≤ |num| := by
        refine le_trans ?_ hlo
        calc (1024 : ℚ) = 1024 ^ 1 := (pow_one _).symm
          _ ≤ 1024 ^ (k + 1) := pow_le_pow_right₀ (by norm_num) (by omega)
      have hcond : ¬ratAbs num < 1024 := by
        rw [ratAbs_eq_abs]
        exact not_lt.mpr hge
      have habs : |num / 1024| = |num| / 1024 := by
        rw [abs_div, abs_of_pos (show (0 : ℚ) < 1024 by norm_num)]
      have hk' : k < rest.length := by
        simpa using hk
      have hlo' : (1024 : ℚ) ^ k ≤ |num / 1024| := by
        rw [habs, le_div_iff₀ (show (0 : ℚ) < 1024 by norm_num), ← pow_succ]
        exact hlo
      have hhi' : |num / 1024| < (1024 : ℚ) ^ (k + 1) := by
        rw [habs, div_lt_iff₀ (show (0 : ℚ) < 1024 by norm_num), ← pow_succ]
        exact hhi
      simp only [sizeofFmtLoop, if_neg hcond]
      rw [ih k (num / 1024) suffix hk' hlo' hhi', div_div, ← pow_succ']
      simp

lemma sizeofFmtLoop_top (units : List String) :
    ∀ (num : ℚ) (suffix : String), (1024 : ℚ) ^ units.length ≤ |num| →
      sizeofFmtLoop units num suffix =
        fmtOneDecimal (num / 1024 ^ units.length) ++ "Yi" ++ suffix := by
  induction units with
  | nil =>
    intro num suffix h
    simp only [sizeofFmtLoop, List.length_nil, pow_zero, div_one]
  | cons unit rest ih =>
    intro num suffix h
    rw [List.length_cons] at h
    have hge : (1024 : ℚ) ≤ |num| := by
      refine le_trans ?_ h
      calc (1024 : ℚ) = 1024 ^ 1 := (pow_one _).symm
        _ ≤ 1024 ^ (rest.length + 1) := pow_le_pow_right₀ (by norm_num) (by omega)
    have hcond : ¬ratAbs num < 1024 := by
      rw [ratAbs_eq_abs]
      exact not_lt.mpr hge
    have h' : (1024 : ℚ) ^ rest.length ≤ |num / 1024| := by
      rw [abs_div, abs_of_pos (show (0 : ℚ) < 1024 by norm_num),
          le_div_iff₀ (show (0 : ℚ) < 1024 by norm_num), ← pow_succ]
      exact h
    simp only [sizeofFmtLoop, if_neg hcond, List.length_cons]
    rw [ih (num / 1024) suffix h', div_div, ← pow_succ']

lemma sizeof_fmt_tier (k : ℕ) (num : ℚ) (suffix : String) (hk : k < 8)
    (hlo : (1024 : ℚ) ^ k ≤ |num|) (hhi : |num| < (1024 : ℚ) ^ (k + 1)) :
    sizeof_fmt num suffix = fmtOneDecimal (num / 1024 ^ k) ++ sizeUnits.getD k "" ++ suffix :=
  sizeofFmtLoop_tier sizeUnits k num suffix (by simpa [sizeUnits] using hk) hlo hhi

lemma sizeof_fmt_top (num : ℚ) (suffix : String) (h : (1024 : ℚ) ^ 8 ≤ |num|) :
    sizeof_fmt num suffix = fmtOneDecimal (num / 1024 ^ 8) ++ "Yi" ++ suffix := by
  have := sizeofFmtLoop_top sizeUnits num suffix (by simpa [sizeUnits] using h)
  simpa [sizeUnits] using this

lemma sizeof_fmt_zero : sizeof_fmt 0 "" = "0.0" := by
  have h : ratAbs (0 : ℚ) < 1024 := by norm_num [ratAbs]
  simp only [sizeof_fmt, sizeUnits, sizeofFmtLoop, if_pos h]
  rw [show (0 : ℚ) = ((0 : ℕ) : ℚ) / 10 by norm_num, fmtOneDecimal_eval]
  decide

lemma sizeof_fmt_1024 : sizeof_fmt 1024 "" = "1.0K" := by
  rw [sizeof_fmt_tier 1 1024 "" (by norm_num)
      (by rw [abs_of_pos (show (0 : ℚ) < 1024 by norm_num)]; norm_num)
      (by rw [abs_of_pos (show (0 : ℚ) < 1024 by norm_num)]; norm_num)]
  rw [show (1024 : ℚ) / 1024 ^ 1 = ((10 : ℕ) : ℚ) / 10 by norm_num, fmtOneDecimal_eval]
  decide

lemma sizeof_fmt_1536 : sizeof_fmt 1536 "" = "1.5K" := by
  rw [sizeof_fmt_tier 1 1536 "" (by norm_num)
      (by rw [abs_of_pos (show (0 : ℚ) < 1536 by norm_num)]; norm_num)
      (by rw [abs_of_pos (show (0 : ℚ) < 1536 by norm_num)]; norm_num)]
  rw [show (1536 : ℚ) / 1024 ^ 1 = ((15 : ℕ) : ℚ) / 10 by norm_num, fmtOneDecimal_eval]
  decide

lemma sizeof_fmt_yi : sizeof_fmt ((1024 : ℚ) ^ 8) "" = "1.0Yi" := by
  rw [sizeof_fmt_top ((1024 : ℚ) ^ 8) ""
      (by rw [abs_of_pos (show (0 : ℚ) < 1024 ^ 8 by positivity)])]
  rw [show ((1024 : ℚ) ^ 8) / 1024 ^ 8 = ((10 : ℕ) : ℚ) / 10 by norm_num, fmtOneDecimal_eval]
  decide

/-- C7: the human-readable size formatter returns `"0.0"` on 0, `"1.0K"` on
1024, `"1.5K"` on 1536, and the fixed `"Yi"` branch on `1024 ^ 8`; in general
a magnitude in the tier `[1024 ^ k, 1024 ^ (k + 1))` for `k < 8` is divided by
`1024 ^ k` and rendered with the `k`-th unit of `("", K, M, G, T, P, E, Z)`,
and a magnitude of at least `1024 ^ 8` is divided by `1024 ^ 8` and rendered
with the fixed suffix `"Yi"`. -/
theorem sizeof_fmt_spec :
    sizeof_fmt 0 "" = "0.0" ∧ sizeof_fmt 1024 "" = "1.0K" ∧ sizeof_fmt 1536 "" = "1.5K" ∧
    sizeof_fmt ((1024 : ℚ) ^ 8) "" = "1.0Yi" ∧
    (∀ (k : ℕ) (num : ℚ) (suffix : String), k < 8 →
      (1024 : ℚ) ^ k ≤ |num| → |num| < (1024 : ℚ) ^ (k + 1) →
      sizeof_fmt num suffix = fmtOneDecimal (num / 1024 ^ k) ++ sizeUnits.getD k "" ++ suffix) ∧
    (∀ (num : ℚ) (suffix : String), (1024 : ℚ) ^ 8 ≤ |num| →
      sizeof_fmt num suffix = fmtOneDecimal (num / 1024 ^ 8) ++ "Yi" ++ suffix) :=
  ⟨sizeof_fmt_zero, sizeof_fmt_1024, sizeof_fmt_1536, sizeof_fmt_yi,
   fun k num suffix hk hlo hhi => sizeof_fmt_tier k num suffix hk hlo hhi,
   fun num suffix h => sizeof_fmt_top num suffix h⟩

/-- Witness for C7: the tier characterization applied at `k = 1`,
`num = 2560`, `suffix = "B"`. -/
theorem sizeof_fmt_spec_witness :
    (1 : ℕ) < 8 ∧ (1024 : ℚ) ^ 1 ≤ |(2560 : ℚ)| ∧ |(2560 : ℚ)| < (1024 : ℚ) ^ 2 ∧
    sizeof_fmt 2560 "B" = fmtOneDecimal ((2560 : ℚ) / 1024 ^ 1) ++ sizeUnits.getD 1 "" ++ "B" :=
  ⟨by norm_num,
   by rw [abs_of_pos (show (0 : ℚ) < 2560 by norm_num)]; norm_num,
   by rw [abs_of_pos (show (0 : ℚ) < 2560 by norm_num)]; norm_num,
   sizeof_fmt_spec.2.2.2.2.1 1 2560 "B" (by norm_num)
     (by rw [abs_of_pos (show (0 : ℚ) < 2560 by norm_num)]; norm_num)
     (by rw [abs_of_pos (show (0 : ℚ) < 2560 by norm_num)]; norm_num)⟩

lemma foldl_if_max_map (fs : List FileInfo) (g : FileInfo → ℕ) (acc : ℕ) :
    fs.foldl (fun padding file => if g file > padding then g file else padding) acc =
      max acc ((fs.map g).foldr max 0) := by
  induction fs generalizing acc with
  | nil => simp
  | cons f t ih =>
    simp only [List.foldl, List.map, List.foldr]
    rw [ih]
    have h2 : (if g f > acc then g f else acc) = max acc (g f) := by
      split <;> omega
    rw [h2, max_assoc]

lemma paddingOf_eq_maxSizeWidth (h : Bool) (fs : List FileInfo) :
    paddingOf h fs = maxSizeWidth h fs := by
  unfold paddingOf maxSizeWidth
  rw [foldl_if_max_map fs (fun file => (sizeDisplay h file).length) 0]
  omega

lemma le_foldr_max (l : List ℕ) (x : ℕ) (hx : x ∈ l) : x ≤ l.foldr max 0 := by
  induction l with
  | nil => cases hx
  | cons a t ih =>
    rcases List.mem_cons.mp hx with hh | hh
    · subst hh
      exact le_max_left _ _
    · exact le_trans (ih hh) (le_max_right _ _)

lemma padLeft_length (w : ℕ) (s : String) : (padLeft w s).length = max w s.length := by
  unfold padLeft
  rw [String.length_append]
  have hmk : (String.mk (List.replicate (w - s.length) ' ')).length = w - s.length := by
    show (List.replicate (w - s.length) ' ').length = w - s.length
    simp
  rw [hmk]
  omega

/-- C8: `_print_nc_files` prints exactly one line per entry, in the order the
server returned the entries, each formed as the rendered size, then the
last-modified string, then the name (with a `"/"` suffix on directories); and
every printed size column is padded to the width of the widest rendered size
of the listing. -/
theorem print_nc_files_spec (h : Bool) (fs : List FileInfo) :
    _print_nc_files h fs =
      fs.map (fun file =>
        padLeft (maxSizeWidth h fs) (sizeDisplay h file) ++ " " ++ file.last_modified ++ " " ++
          (pathlibName file.path ++ if file.is_dir then "/" else "")) ∧
    (∀ file ∈ fs,
      (padLeft (maxSizeWidth h fs) (sizeDisplay h file)).length = maxSizeWidth h fs) ∧
    (_print_nc_files h fs).length = fs.length := by
  refine ⟨?_, ?_, ?_⟩
  · simp only [_print_nc_files, paddingOf_eq_maxSizeWidth]
  · intro file hf
    rw [padLeft_length]
    have hle : (sizeDisplay h file).length ≤ maxSizeWidth h fs := by
      unfold maxSizeWidth
      exact le_foldr_max _ _ (List.mem_map_of_mem _ hf)
    omega
  · unfold _print_nc_files
    simp

/-- Witness for C8: on the fixture listing `[fiDocs, fiNote]` the size column
of `fiNote` is padded to the common maximum width. -/
theorem print_nc_files_spec_witness :
    fiNote ∈ [fiDocs, fiNote] ∧
    (padLeft (maxSizeWidth false [fiDocs, fiNote]) (sizeDisplay false fiNote)).length =
      maxSizeWidth false [fiDocs, fiNote] :=
  ⟨by decide, (print_nc_files_spec false [fiDocs, fiNote]).2.1 fiNote (by decide)⟩

end NextcloudCLI
